import Mathlib

set_option maxRecDepth 10000

namespace NoteDraft

/-! Shallow embedding of the draft-extraction logic of `src/write.mjs`.
The network calls (`generateText`) are outside the model; the repair
call's response text is passed in as an explicit argument. -/

/-- Model of a JavaScript JSON value as produced by `JSON.parse`.
Numbers carry their source lexeme. -/
inductive JsValue where
  | null
  | bool (b : Bool)
  | num (lexeme : String)
  | str (s : String)
  | arr (elems : List JsValue)
  | obj (fields : List (String × JsValue))
deriving Repr, Inhabited

mutual
/-- Model of the JavaScript coercion `String(v)`. -/
def jsToString : JsValue → String
  | JsValue.null => "null"
  | JsValue.bool b => if b then "true" else "false"
  | JsValue.num lexeme => lexeme
  | JsValue.str s => s
  | JsValue.arr xs => String.intercalate "," (jsJoinElems xs)
  | JsValue.obj _ => "[object Object]"

/-- Element strings of `Array.prototype.toString` (i.e. `join(',')`):
null elements print as the empty string. -/
def jsJoinElems : List JsValue → List String
  | [] => []
  | v :: vs =>
    (match v with
     | JsValue.null => ""
     | w => jsToString w) :: jsJoinElems vs
end

def quoteChar : Char := Char.ofNat 34

def apostChar : Char := Char.ofNat 39

def backquote : Char := Char.ofNat 96

def openBrace : Char := Char.ofNat 123

def closeBrace : Char := Char.ofNat 125

/-- Whitespace accepted by `JSON.parse` between tokens. -/
def isJsonWs (c : Char) : Bool :=
  c == ' ' || c == '\t' || c == '\n' || c == '\r'

/-- The zero-width space U+200B. -/
def zwsp : Char := Char.ofNat 0x200b

/-- The WhiteSpace/LineTerminator set used by JavaScript `String.prototype.trim`
and by the regexp class `\s`.  Note U+200B is not in this set. -/
def isJsWs (c : Char) : Bool :=
  c == ' ' || c == '\t' || c == '\n' || c == Char.ofNat 0x0b || c == Char.ofNat 0x0c ||
  c == '\r' || c == Char.ofNat 0xa0 || c == Char.ofNat 0x1680 ||
  (0x2000 ≤ c.toNat && c.toNat ≤ 0x200a) ||
  c == Char.ofNat 0x2028 || c == Char.ofNat 0x2029 || c == Char.ofNat 0x202f ||
  c == Char.ofNat 0x205f || c == Char.ofNat 0x3000 || c == Char.ofNat 0xfeff

def dropTrailing (p : Char → Bool) (l : List Char) : List Char :=
  (l.reverse.dropWhile p).reverse

def jsTrimList (l : List Char) : List Char :=
  dropTrailing isJsWs (l.dropWhile isJsWs)

/-- Model of JavaScript `String.prototype.trim`. -/
def jsTrim (s : String) : String := String.mk (jsTrimList s.data)

/-- Model of `.replace(/\u200B/g, '')` : delete every zero-width space. -/
def removeZwsp (s : String) : String :=
  String.mk (s.data.filter (fun c => c != zwsp))

/-- Line 37 of `write.mjs`: trim, then delete every U+200B.
The trim happens before the zero-width spaces are deleted. -/
def preprocess (raw : String) : String := removeZwsp (jsTrim raw)

def hexDigitVal (c : Char) : Option Nat :=
  if '0' ≤ c ∧ c ≤ '9' then some (c.toNat - '0'.toNat)
  else if 'a' ≤ c ∧ c ≤ 'f' then some (c.toNat - 'a'.toNat + 10)
  else if 'A' ≤ c ∧ c ≤ 'F' then some (c.toNat - 'A'.toNat + 10)
  else none

/-- Single-character JSON string escapes. -/
def escapeChar (c : Char) : Option Char :=
  if c == quoteChar then some quoteChar
  else if c == '\\' then some '\\'
  else if c == '/' then some '/'
  else if c == 'b' then some (Char.ofNat 8)
  else if c == 'f' then some (Char.ofNat 12)
  else if c == 'n' then some '\n'
  else if c == 'r' then some '\r'
  else if c == 't' then some '\t'
  else none

/-- Body of a JSON string literal, after the opening quote. -/
def parseStringChars : Nat → List Char → List Char → Option (String × List Char)
  | 0, _, _ => none
  | Nat.succ fuel, cs, acc =>
    match cs with
    | [] => none
    | c :: rest =>
      if c == quoteChar then some (String.mk acc.reverse, rest)
      else if c == '\\' then
        match rest with
        | [] => none
        | e :: rest2 =>
          if e == 'u' then
            match rest2 with
            | h1 :: h2 :: h3 :: h4 :: rest3 =>
              match hexDigitVal h1, hexDigitVal h2, hexDigitVal h3, hexDigitVal h4 with
              | some a, some b, some c2, some d =>
                parseStringChars fuel rest3 (Char.ofNat (((a*16+b)*16+c2)*16+d) :: acc)
              | _, _, _, _ => none
            | _ => none
          else
            match escapeChar e with
            | some ec => parseStringChars fuel rest2 (ec :: acc)
            | none => none
      else if c.toNat < 32 then none
      else parseStringChars fuel rest (c :: acc)

def parseFracPart (cs : List Char) : Option (List Char × List Char) :=
  match cs with
  | c :: r =>
    if c == '.' then
      let ds := r.takeWhile Char.isDigit
      if ds.isEmpty then none else some ('.' :: ds, r.dropWhile Char.isDigit)
    else some ([], cs)
  | [] => some ([], [])

def parseExpPart (cs : List Char) : Option (List Char × List Char) :=
  match cs with
  | c :: r =>
    if c == 'e' || c == 'E' then
      let (sg, r1) :=
        match r with
        | c2 :: r2 => if c2 == '+' || c2 == '-' then ([c2], r2) else ([], r)
        | [] => (([] : List Char), r)
      let ds := r1.takeWhile Char.isDigit
      if ds.isEmpty then none else some (c :: (sg ++ ds), r1.dropWhile Char.isDigit)
    else some ([], cs)
  | [] => some ([], [])

def finishNumber (intPart : List Char) (cs : List Char) : Option (String × List Char) :=
  match parseFracPart cs with
  | none => none
  | some (fr, cs2) =>
    match parseExpPart cs2 with
    | none => none
    | some (ex, cs3) => some (String.mk (intPart ++ fr ++ ex), cs3)

/-- JSON number grammar; returns the lexeme. -/
def parseNumber (cs : List Char) : Option (String × List Char) :=
  let (sgn, cs1) :=
    match cs with
    | c :: r => if c == '-' then (['-'], r) else (([] : List Char), cs)
    | [] => (([] : List Char), cs)
  match cs1 with
  | [] => none
  | c :: r =>
    if c == '0' then finishNumber (sgn ++ ['0']) r
    else if c.isDigit then
      finishNumber (sgn ++ cs1.takeWhile Char.isDigit) (cs1.dropWhile Char.isDigit)
    else none

mutual
/-- Recursive-descent model of `JSON.parse` on a value whose leading
whitespace has been skipped.  The fuel is generously larger than any
possible recursion depth on the given input. -/
def parseValue : Nat → List Char → Option (JsValue × List Char)
  | 0, _ => none
  | Nat.succ fuel, cs =>
    match cs with
    | [] => none
    | c :: rest =>
      if c == 'n' then
        match rest with
        | 'u' :: 'l' :: 'l' :: r => some (JsValue.null, r)
        | _ => none
      else if c == 't' then
        match rest with
        | 'r' :: 'u' :: 'e' :: r => some (JsValue.bool true, r)
        | _ => none
      else if c == 'f' then
        match rest with
        | 'a' :: 'l' :: 's' :: 'e' :: r => some (JsValue.bool false, r)
        | _ => none
      else if c == quoteChar then
        match parseStringChars (rest.length + 1) rest [] with
        | some (s, rest2) => some (JsValue.str s, rest2)
        | none => none
      else if c == '[' then
        let r1 := rest.dropWhile isJsonWs
        match r1 with
        | ']' :: r2 => some (JsValue.arr [], r2)
        | _ =>
          match parseElems fuel r1 with
          | some (vs, r2) => some (JsValue.arr vs, r2)
          | none => none
      else if c == openBrace then
        let r1 := rest.dropWhile isJsonWs
        match r1 with
        | b :: r2 =>
          if b == closeBrace then some (JsValue.obj [], r2)
          else
            match parseMembers fuel r1 with
            | some (fs, r3) => some (JsValue.obj fs, r3)
            | none => none
        | [] => none
      else if c == '-' || c.isDigit then
        match parseNumber cs with
        | some (lexeme, rest2) => some (JsValue.num lexeme, rest2)
        | none => none
      else none

/-- Array elements: `value (ws ',' ws value)* ws ']'`. -/
def parseElems : Nat → List Char → Option (List JsValue × List Char)
  | 0, _ => none
  | Nat.succ fuel, cs =>
    match parseValue fuel cs with
    | none => none
    | some (v, rest) =>
      let r1 := rest.dropWhile isJsonWs
      match r1 with
      | ',' :: r2 =>
        match parseElems fuel (r2.dropWhile isJsonWs) with
        | some (vs, r3) => some (v :: vs, r3)
        | none => none
      | ']' :: r2 => some ([v], r2)
      | _ => none

/-- Object members: `string ws ':' ws value (ws ',' ws members | ws '\x7d')`. -/
def parseMembers : Nat → List Char → Option (List (String × JsValue) × List Char)
  | 0, _ => none
  | Nat.succ fuel, cs =>
    match cs with
    | c :: rest =>
      if c == quoteChar then
        match parseStringChars (rest.length + 1) rest [] with
        | none => none
        | some (k, rest2) =>
          let r1 := rest2.dropWhile isJsonWs
          match r1 with
          | ':' :: r2 =>
            match parseValue fuel (r2.dropWhile isJsonWs) with
            | none => none
            | some (v, rest3) =>
              let r3 := rest3.dropWhile isJsonWs
              match r3 with
              | b :: r4 =>
                if b == ',' then
                  match parseMembers fuel (r4.dropWhile isJsonWs) with
                  | some (fs, r5) => some ((k, v) :: fs, r5)
                  | none => none
                else if b == closeBrace then some ([(k, v)], r4)
                else none
              | [] => none
          | _ => none
      else none
    | [] => none
end

/-- Model of `JSON.parse`: `none` models a thrown `SyntaxError`. -/
def jsonParse (s : String) : Option JsValue :=
  let cs := s.data.dropWhile isJsonWs
  match parseValue (4 * cs.length + 16) cs with
  | some (v, rest) => if rest.dropWhile isJsonWs = [] then some v else none
  | none => none

def isAsciiLetter (c : Char) : Bool :=
  ('a' ≤ c && c ≤ 'z') || ('A' ≤ c && c ≤ 'Z')

def startsWithFenceL : List Char → Bool
  | c1 :: c2 :: c3 :: _ => c1 == backquote && c2 == backquote && c3 == backquote
  | _ => false

def containsFence : List Char → Bool
  | [] => false
  | c :: rest => startsWithFenceL (c :: rest) || containsFence rest

/-- Suffix of the input at the start position of the leftmost match of
the regexp from line 42: a triple backtick with another triple backtick
at least three characters later. -/
def findFenceStart : List Char → Option (List Char)
  | [] => none
  | c :: rest =>
    if startsWithFenceL (c :: rest) && containsFence ((c :: rest).drop 3) then
      some (c :: rest)
    else findFenceStart rest

def takeUntilFence : List Char → List Char
  | [] => []
  | c :: rest =>
    if startsWithFenceL (c :: rest) then [] else c :: takeUntilFence rest

/-- The captured group of the fenced-code-block regexp
(triple backtick, optional language tag, lazy body, closing fence). -/
def fenceInnerL (cs : List Char) : Option (List Char) :=
  match findFenceStart cs with
  | none => none
  | some l =>
    let r1 := (l.drop 3).dropWhile isAsciiLetter
    let r2 := r1.dropWhile isJsWs
    some (dropTrailing isJsWs (takeUntilFence r2))

def fenceInnerS (s : String) : Option String :=
  (fenceInnerL s.data).map String.mk

/-- First `\x7b` through last `\x7d` of the text, inclusive (lines 51-54). -/
def braceSliceL (cs : List Char) : Option (List Char) :=
  match cs.findIdx? (fun c => c == openBrace) with
  | none => none
  | some i =>
    match cs.reverse.findIdx? (fun c => c == closeBrace) with
    | none => none
    | some j =>
      let lastIdx := cs.length - 1 - j
      if i < lastIdx then some ((cs.drop i).take (lastIdx + 1 - i)) else none

def braceSliceS (s : String) : Option String :=
  (braceSliceL s.data).map String.mk

/-- Fenced-code-block stage of `extractJsonFlexible` (lines 42-49). -/
def fenceStage (text : String) : Option JsValue :=
  match fenceInnerS text with
  | some inner => if inner = "" then none else jsonParse (jsTrim inner)
  | none => none

/-- Brace-slice stage of `extractJsonFlexible` (lines 50-60). -/
def sliceStage (text : String) : Option JsValue :=
  match braceSliceS text with
  | some candidate => jsonParse candidate
  | none => none

/-- `extractJsonFlexible` (lines 36-63): direct parse, then fenced block,
then brace slice; returns null when everything fails. -/
def extractJsonFlexible (raw : String) : JsValue :=
  match jsonParse (preprocess raw) with
  | some v => v
  | none =>
    match fenceStage (preprocess raw) with
    | some v => v
    | none =>
      match sliceStage (preprocess raw) with
      | some v => v
      | none => JsValue.null

/-- `repairJson` (lines 65-82) with the model's response text injected:
`JSON.parse(result.text)` and, on a parse error, `extractJsonFlexible`. -/
def repairJson (responseText : String) : JsValue :=
  match jsonParse responseText with
  | some v => v
  | none => extractJsonFlexible responseText

/-- JavaScript truthiness of a JSON value. -/
def jsTruthy : JsValue → Bool
  | JsValue.null => false
  | JsValue.bool b => b
  | JsValue.num lexeme =>
      !((lexeme.data.takeWhile (fun c => c != 'e' && c != 'E')).all
          (fun c => !c.isDigit || c == '0'))
  | JsValue.str s => s != ""
  | JsValue.arr _ => true
  | JsValue.obj _ => true

/-- JavaScript property access `v[k]`; `none` models `undefined`.
Duplicate keys in an object literal keep the last value. -/
def getField (v : JsValue) (k : String) : Option JsValue :=
  match v with
  | JsValue.obj fs =>
    fs.foldl (fun acc p => if p.1 = k then some p.2 else acc) none
  | _ => none

/-- Truthiness of a possibly-undefined value. -/
def jsTruthyOpt : Option JsValue → Bool
  | some v => jsTruthy v
  | none => false

/-- `Array.isArray` on a possibly-undefined value. -/
def isArrOpt : Option JsValue → Bool
  | some (JsValue.arr _) => true
  | _ => false

/-- The JavaScript idiom `String(v || '')`. -/
def jsOrEmptyString (v : Option JsValue) : String :=
  match v with
  | some w => if jsTruthy w then jsToString w else ""
  | none => ""

def isFenceWordChar (c : Char) : Bool :=
  isAsciiLetter c || c.isDigit || c == '_' || c == '-'

/-- Whether the whole string matches the regexp of line 86:
a triple backtick, then word characters, then whitespace, and nothing else. -/
def isFenceMarkerLine (l : List Char) : Bool :=
  startsWithFenceL l && ((l.drop 3).dropWhile isFenceWordChar).all isJsWs

def placeholderTitle : String := "タイトル（自動生成）"

/-- The stripping pipeline of `sanitizeTitle` (lines 85-90), before the
final trim and the emptiness check. -/
def sanitizeCore (s : String) : List Char :=
  let t0 := jsTrimList s.data
  let t1 := if isFenceMarkerLine t0 then [] else t0
  let t2 := if t1 == [backquote, backquote, backquote] then [] else t1
  let t3 :=
    match t2 with
    | c :: _ =>
      if c == '#' then (t2.dropWhile (fun d => d == '#')).dropWhile isJsWs else t2
    | [] => t2
  let t4 := dropTrailing (fun c => c == quoteChar) (t3.dropWhile (fun c => c == quoteChar))
  let t5 := dropTrailing (fun c => c == apostChar) (t4.dropWhile (fun c => c == apostChar))
  let t6 := dropTrailing (fun c => c == backquote) (t5.dropWhile (fun c => c == backquote))
  if t6.map Char.toLower == ['j', 's', 'o', 'n'] then [] else t6

/-- `sanitizeTitle` on an already-coerced string (lines 84-95). -/
def sanitizeTitleStr (s : String) : String :=
  if jsTrim (String.mk (sanitizeCore s)) = "" then placeholderTitle
  else jsTrim (String.mk (sanitizeCore s))

/-- `sanitizeTitle(value)` for an arbitrary (possibly undefined) value. -/
def sanitizeTitleVal (v : Option JsValue) : String :=
  sanitizeTitleStr (jsOrEmptyString v)

def splitLinesAux : List Char → List Char → List String
  | [], acc => [String.mk acc.reverse]
  | [c], acc =>
    if c == '\n' then [String.mk acc.reverse, ""]
    else [String.mk (c :: acc).reverse]
  | c :: c2 :: rest, acc =>
    if c == '\n' then String.mk acc.reverse :: splitLinesAux (c2 :: rest) []
    else if c == '\r' && c2 == '\n' then String.mk acc.reverse :: splitLinesAux rest []
    else splitLinesAux (c2 :: rest) (c :: acc)

/-- Model of `text.split(/\r?\n/)`. -/
def splitLines (s : String) : List String := splitLinesAux s.data []

/-- The trimmed non-empty lines of the text (line 98). -/
def realLines (text : String) : List String :=
  ((splitLines text).map jsTrim).filter (fun l => l != "")

/-- Line 99: the first non-empty line that is not a code-fence line,
or else the first non-empty line, or else the empty string. -/
def firstRealLineOf (text : String) : String :=
  match (realLines text).find? (fun l => !startsWithFenceL l.data) with
  | some l => l
  | none => (realLines text).headD ""

/-- `deriveTitleFromText` (lines 97-101). -/
def deriveTitleFromText (text : String) : String :=
  sanitizeTitleStr (firstRealLineOf text)

/-- The body computed on the raw-text fallback path (lines 141-142). -/
def deriveBody (text : String) : String :=
  if jsTrim (String.intercalate "\n" ((splitLines text).drop 1)) = "" then text
  else jsTrim (String.intercalate "\n" ((splitLines text).drop 1))

structure DraftRecord where
  title : String
  draftBody : String
  tags : List String
deriving Repr, DecidableEq

/-- The record built on the raw-text fallback path (lines 139-144). -/
def derivedRecord (text : String) : DraftRecord :=
  { title := deriveTitleFromText text, draftBody := deriveBody text, tags := [] }

/-- Line 127: the flexible extraction, or else the repair call. -/
def effectiveParsed (text repairResponse : String) : JsValue :=
  if jsTruthy (extractJsonFlexible text) then extractJsonFlexible text
  else repairJson repairResponse

/-- Line 136: tags of the parsed value, coerced elementwise by `String`,
or empty when the tags field is not an array. -/
def extractedTags (parsed : JsValue) : List String :=
  match getField parsed "tags" with
  | some (JsValue.arr xs) => xs.map jsToString
  | _ => []

/-- Lines 127-144 of `main`: build the draft record from the primary
generation text and the (injected) repair-response text. -/
def mainExtract (text repairResponse : String) : DraftRecord :=
  if jsTruthy (effectiveParsed text repairResponse) then
    if sanitizeTitleVal (getField (effectiveParsed text repairResponse) "title") = "" ∨
        jsTrim (jsOrEmptyString (getField (effectiveParsed text repairResponse) "draftBody")) = "" then
      derivedRecord text
    else
      { title := sanitizeTitleVal (getField (effectiveParsed text repairResponse) "title"),
        draftBody := jsTrim (jsOrEmptyString (getField (effectiveParsed text repairResponse) "draftBody")),
        tags := extractedTags (effectiveParsed text repairResponse) }
  else derivedRecord text

/-- Insertion into a JavaScript `Set`, viewed as an ordered list. -/
def setAdd (acc : List String) (x : String) : List String :=
  if x ∈ acc then acc else acc ++ [x]

/-- `Array.from(new Set(l))`: deduplication keeping first occurrences. -/
def dedupOrdered (l : List String) : List String := l.foldl setAdd []

/-- Lines 146-149: merge caller-supplied tags when there are any. -/
def mergeTags (tags inputTags : List String) : List String :=
  if inputTags = [] then tags else dedupOrdered (tags ++ inputTags)

/-- Lines 127-149: extraction followed by the caller's tag merge. -/
def mainRecord (text repairResponse : String) (inputTags : List String) : DraftRecord :=
  { mainExtract text repairResponse with
    tags := mergeTags (mainExtract text repairResponse).tags inputTags }

/-! ### Helper lemmas -/

theorem sanitizeTitleStr_ne_empty (s : String) : sanitizeTitleStr s ≠ "" := by
  unfold sanitizeTitleStr
  by_cases h : jsTrim (String.mk (sanitizeCore s)) = ""
  · rw [if_pos h]
    decide
  · rw [if_neg h]
    exact h

theorem sanitizeTitleVal_ne_empty (v : Option JsValue) : sanitizeTitleVal v ≠ "" :=
  sanitizeTitleStr_ne_empty _

theorem deriveTitleFromText_ne_empty (text : String) : deriveTitleFromText text ≠ "" :=
  sanitizeTitleStr_ne_empty _

theorem mk_title (t b : String) (tg : List String) :
    ({ title := t, draftBody := b, tags := tg } : DraftRecord).title = t := rfl

theorem mk_body (t b : String) (tg : List String) :
    ({ title := t, draftBody := b, tags := tg } : DraftRecord).draftBody = b := rfl

theorem mk_tags (t b : String) (tg : List String) :
    ({ title := t, draftBody := b, tags := tg } : DraftRecord).tags = tg := rfl

theorem derivedRecord_title (text : String) :
    (derivedRecord text).title = deriveTitleFromText text := by
  unfold derivedRecord
  exact mk_title _ _ _

theorem derivedRecord_body (text : String) :
    (derivedRecord text).draftBody = deriveBody text := by
  unfold derivedRecord
  exact mk_body _ _ _

theorem derivedRecord_tags (text : String) : (derivedRecord text).tags = [] := by
  unfold derivedRecord
  exact mk_tags _ _ _

theorem mainExtract_title_ne (text resp : String) : (mainExtract text resp).title ≠ "" := by
  unfold mainExtract
  split
  · split
    · rw [derivedRecord_title]
      exact deriveTitleFromText_ne_empty text
    · rw [mk_title]
      exact sanitizeTitleVal_ne_empty _
  · rw [derivedRecord_title]
    exact deriveTitleFromText_ne_empty text

theorem jsToString_str (s : String) : jsToString (JsValue.str s) = s := rfl

theorem jsOrEmptyString_str (b : String) : jsOrEmptyString (some (JsValue.str b)) = b := by
  by_cases h : b = ""
  · simp [jsOrEmptyString, jsTruthy, h]
  · simp [jsOrEmptyString, jsTruthy, h, jsToString_str]

theorem mem_setAdd (acc : List String) (a x : String) :
    x ∈ setAdd acc a ↔ x ∈ acc ∨ x = a := by
  unfold setAdd
  by_cases h : a ∈ acc
  · rw [if_pos h]
    constructor
    · exact Or.inl
    · rintro (hx | rfl)
      · exact hx
      · exact h
  · rw [if_neg h]
    simp

theorem nodup_setAdd (acc : List String) (a : String) (h : acc.Nodup) :
    (setAdd acc a).Nodup := by
  unfold setAdd
  by_cases ha : a ∈ acc
  · rw [if_pos ha]; exact h
  · rw [if_neg ha]
    simp [List.nodup_append, h, ha]

theorem mem_foldl_setAdd (l : List String) : ∀ (acc : List String) (x : String),
    x ∈ l.foldl setAdd acc ↔ x ∈ acc ∨ x ∈ l := by
  induction l with
  | nil => intro acc x; simp
  | cons a t ih =>
    intro acc x
    rw [List.foldl_cons, ih, mem_setAdd]
    simp [or_assoc]

theorem nodup_foldl_setAdd (l : List String) : ∀ acc : List String,
    acc.Nodup → (l.foldl setAdd acc).Nodup := by
  induction l with
  | nil => intro acc h; simpa
  | cons a t ih => intro acc h; rw [List.foldl_cons]; exact ih _ (nodup_setAdd acc a h)

theorem dedupOrdered_nodup (l : List String) : (dedupOrdered l).Nodup :=
  nodup_foldl_setAdd l [] List.nodup_nil

theorem mem_dedupOrdered (l : List String) (x : String) :
    x ∈ dedupOrdered l ↔ x ∈ l := by
  unfold dedupOrdered
  rw [mem_foldl_setAdd]
  simp

theorem mergeTags_of_ne (tags input : List String) (h : input ≠ []) :
    mergeTags tags input = dedupOrdered (tags ++ input) := by
  unfold mergeTags
  rw [if_neg h]

theorem mainRecord_tags_eq (text resp : String) (input : List String) :
    (mainRecord text resp input).tags = mergeTags (mainExtract text resp).tags input := rfl

theorem effectiveParsed_of_extract (text resp : String)
    (h : jsTruthy (extractJsonFlexible text) = true) :
    effectiveParsed text resp = extractJsonFlexible text := by
  unfold effectiveParsed
  rw [if_pos h]

theorem effectiveParsed_of_no_extract (text resp : String)
    (h : jsTruthy (extractJsonFlexible text) = false) :
    effectiveParsed text resp = repairJson resp := by
  unfold effectiveParsed
  rw [if_neg (by simp [h])]

theorem mainExtract_of_no_parse (text resp : String)
    (he : jsTruthy (extractJsonFlexible text) = false)
    (hr : jsTruthy (repairJson resp) = false) :
    mainExtract text resp = derivedRecord text := by
  unfold mainExtract
  rw [effectiveParsed_of_no_extract text resp he]
  rw [if_neg (by simp [hr])]

theorem isJsonWs_isJsWs (c : Char) (h : isJsonWs c = true) : isJsWs c = true := by
  unfold isJsonWs at h
  simp only [Bool.or_eq_true, beq_iff_eq] at h
  rcases h with ((h | h) | h) | h <;> subst h <;> decide

theorem dropWhile_append_all {p : Char → Bool} (a x : List Char)
    (ha : ∀ c ∈ a, p c = true) : (a ++ x).dropWhile p = x.dropWhile p := by
  induction a with
  | nil => simp
  | cons c t ih =>
    rw [List.cons_append, List.dropWhile_cons, if_pos (ha c (List.mem_cons_self c t))]
    exact ih (fun d hd => ha d (List.mem_cons_of_mem c hd))

theorem jsTrimList_sandwich (a s b : List Char)
    (ha : ∀ c ∈ a, isJsWs c = true) (hb : ∀ c ∈ b, isJsWs c = true)
    (h1 : s.head? = some openBrace) (h2 : s.getLast? = some closeBrace) :
    jsTrimList (a ++ (s ++ b)) = s := by
  cases s with
  | nil => simp at h1
  | cons c t =>
    have hc : c = openBrace := by
      simpa using h1
    subst hc
    unfold jsTrimList
    rw [dropWhile_append_all a _ ha, List.cons_append, List.dropWhile_cons,
      if_neg (by decide)]
    unfold dropTrailing
    have hrev : (openBrace :: (t ++ b)).reverse = b.reverse ++ (t.reverse ++ [openBrace]) := by
      simp
    rw [hrev, dropWhile_append_all b.reverse _
      (fun c hc => hb c (List.mem_reverse.mp hc))]
    have hstop : (t.reverse ++ [openBrace]).dropWhile isJsWs = t.reverse ++ [openBrace] := by
      cases ht : t.reverse with
      | nil =>
        simp only [List.nil_append, List.dropWhile_cons]
        rw [if_neg (by decide)]
      | cons d r =>
        have hd : d = closeBrace := by
          have h3 := List.head?_reverse (openBrace :: t)
          rw [h2] at h3
          rw [show (openBrace :: t).reverse = (d :: r) ++ [openBrace] from by
            rw [List.reverse_cons, ht]] at h3
          simpa using h3
        subst hd
        rw [List.cons_append, List.dropWhile_cons, if_neg (by decide)]
    rw [hstop]
    simp

theorem jsTrim_sandwich (a s b : String)
    (ha : ∀ c ∈ a.data, isJsWs c = true) (hb : ∀ c ∈ b.data, isJsWs c = true)
    (h1 : s.data.head? = some openBrace) (h2 : s.data.getLast? = some closeBrace) :
    jsTrim (a ++ s ++ b) = s := by
  unfold jsTrim
  have hd : (a ++ s ++ b).data = a.data ++ (s.data ++ b.data) := by
    rw [String.data_append, String.data_append, List.append_assoc]
  rw [hd, jsTrimList_sandwich a.data s.data b.data ha hb h1 h2]

theorem extractedTags_nil (p : JsValue) (h : isArrOpt (getField p "tags") = false) :
    extractedTags p = [] := by
  cases hg : getField p "tags" with
  | none => simp [extractedTags, hg]
  | some w =>
    cases w with
    | arr xs =>
      rw [hg] at h
      simp [isArrOpt] at h
    | null => simp [extractedTags, hg]
    | bool b2 => simp [extractedTags, hg]
    | num l => simp [extractedTags, hg]
    | str s2 => simp [extractedTags, hg]
    | obj fs => simp [extractedTags, hg]

theorem extractedTags_arr (p : JsValue) (xs : List JsValue)
    (h : getField p "tags" = some (JsValue.arr xs)) :
    extractedTags p = xs.map jsToString := by
  simp [extractedTags, h]

/-! ### Claims -/

/-- C1 counterexample: for the raw input
`\x7b"title":"T","draftBody":" B ","tags":["a"]\x7d` the direct-parse stage
obtains a JSON object of the expected shape whose draftBody value is `" B "`,
yet the returned record's draftBody is not equal to that parsed value
(the code trims it to `"B"`). -/
theorem C1_counterexample :
    extractJsonFlexible "\x7b\"title\":\"T\",\"draftBody\":\" B \",\"tags\":[\"a\"]\x7d" =
      JsValue.obj [("title", JsValue.str "T"), ("draftBody", JsValue.str " B "),
        ("tags", JsValue.arr [JsValue.str "a"])] ∧
    (mainExtract "\x7b\"title\":\"T\",\"draftBody\":\" B \",\"tags\":[\"a\"]\x7d" "").draftBody ≠
      " B " := by
  exact ⟨rfl, by decide⟩

/-- C1 (amended): when some stage of the fallback chain obtains a JSON object
with a string title value, a string draftBody value and an array tags value,
the extraction returns the sanitized title, the draftBody value trimmed of
surrounding whitespace, and the tags coerced elementwise to strings — except
that when the draftBody value trims to the empty string the raw-text
derivation is used even though a JSON object was obtained. -/
theorem C1_parsed_fields (text resp : String) (fs : List (String × JsValue))
    (tv : JsValue) (bodyStr : String) (ts : List JsValue)
    (hp : effectiveParsed text resp = JsValue.obj fs)
    (ht : getField (JsValue.obj fs) "title" = some tv)
    (hb : getField (JsValue.obj fs) "draftBody" = some (JsValue.str bodyStr))
    (hg : getField (JsValue.obj fs) "tags" = some (JsValue.arr ts)) :
    mainExtract text resp =
      if jsTrim bodyStr = "" then derivedRecord text
      else { title := sanitizeTitleVal (some tv), draftBody := jsTrim bodyStr,
             tags := ts.map jsToString } := by
  unfold mainExtract
  rw [hp, ht, hb]
  rw [if_pos (show jsTruthy (JsValue.obj fs) = true from rfl)]
  rw [jsOrEmptyString_str, extractedTags_arr (JsValue.obj fs) ts hg]
  by_cases hbody : jsTrim bodyStr = ""
  · rw [if_pos (Or.inr hbody), if_pos hbody]
  · rw [if_neg ?_, if_neg hbody]
    rintro (hch | hcb)
    · exact sanitizeTitleVal_ne_empty _ hch
    · exact hbody hcb

/-- C1 witness: instantiation of the amended claim at a concrete input whose
draftBody does not trim to empty. -/
theorem C1_witness :
    mainExtract "\x7b\"title\":\"T\",\"draftBody\":\"B\",\"tags\":[\"a\"]\x7d" "" =
      if jsTrim "B" = "" then
        derivedRecord "\x7b\"title\":\"T\",\"draftBody\":\"B\",\"tags\":[\"a\"]\x7d"
      else { title := sanitizeTitleVal (some (JsValue.str "T")), draftBody := jsTrim "B",
             tags := [JsValue.str "a"].map jsToString } :=
  C1_parsed_fields "\x7b\"title\":\"T\",\"draftBody\":\"B\",\"tags\":[\"a\"]\x7d" ""
    [("title", JsValue.str "T"), ("draftBody", JsValue.str "B"),
      ("tags", JsValue.arr [JsValue.str "a"])]
    (JsValue.str "T") "B" [JsValue.str "a"] (by rfl) (by rfl) (by rfl) (by rfl)

/-- C2: for every primary generation text, repair-response text and input-tag
list, the extraction pipeline returns a draft record with a string title,
string draftBody and a list of string tags, with a non-empty title; it is a
total function, so it never raises an error. -/
theorem C2_total (text resp : String) (inputTags : List String) :
    ∃ (t b : String) (tg : List String),
      mainRecord text resp inputTags = { title := t, draftBody := b, tags := tg } ∧
      t ≠ "" := by
  refine ⟨(mainExtract text resp).title, (mainExtract text resp).draftBody,
    mergeTags (mainExtract text resp).tags inputTags, ?_, mainExtract_title_ne text resp⟩
  unfold mainRecord
  rfl

/-- C3: the returned title is never empty, and whenever the sanitization
stripping pipeline leaves an empty or whitespace-only string the result of
title sanitization is the fixed placeholder string. -/
theorem C3_nonempty_placeholder (text resp s : String)
    (h : jsTrim (String.mk (sanitizeCore s)) = "") :
    (mainExtract text resp).title ≠ "" ∧ sanitizeTitleStr s = placeholderTitle := by
  refine ⟨mainExtract_title_ne text resp, ?_⟩
  unfold sanitizeTitleStr
  rw [if_pos h]

/-- C3 witness: a title of markdown hash marks only sanitizes to the
placeholder, and a concrete extraction has a non-empty title. -/
theorem C3_witness :
    (mainExtract "hello" "x").title ≠ "" ∧ sanitizeTitleStr "###" = placeholderTitle :=
  C3_nonempty_placeholder "hello" "x" "###" (by rfl)

/-- C4 counterexample: on input `"\nTitle\nBody"` (with a failing repair) the
derived draftBody is `"Title\nBody"` — the remaining text after removing the
literal first line of the split, which still contains the title line — not
the text remaining after removing the first non-empty line. -/
theorem C4_counterexample :
    mainExtract "\nTitle\nBody" "x" =
      { title := "Title", draftBody := "Title\nBody", tags := [] } ∧
    ("Title\nBody" : String) ≠ "Body" ∧ ("Title\nBody" : String) ≠ "\nBody" := by
  exact ⟨rfl, by decide, by decide⟩

/-- C4 (amended): when no stage obtains a truthy JSON value, the record is
derived from the raw text: the title is the first non-empty non-fence line
sanitized, and the draftBody is the text after the literal first line of the
newline split, trimmed, falling back to the whole text when that is empty;
in particular `"My Great Title\nSome body content"` yields exactly the title
`"My Great Title"` and body `"Some body content"`. -/
theorem C4_derive_fallback (text resp : String)
    (h1 : jsTruthy (extractJsonFlexible text) = false)
    (h2 : jsTruthy (repairJson resp) = false) :
    mainExtract text resp = derivedRecord text ∧
    mainExtract "My Great Title\nSome body content" resp =
      { title := "My Great Title", draftBody := "Some body content", tags := [] } := by
  refine ⟨mainExtract_of_no_parse text resp h1 h2, ?_⟩
  rw [mainExtract_of_no_parse "My Great Title\nSome body content" resp (by rfl) h2]
  rfl

/-- C4 witness: instantiation of the amended claim at concrete inputs. -/
theorem C4_witness :
    mainExtract "alpha\nbeta" "x" = derivedRecord "alpha\nbeta" ∧
    mainExtract "My Great Title\nSome body content" "x" =
      { title := "My Great Title", draftBody := "Some body content", tags := [] } :=
  C4_derive_fallback "alpha\nbeta" "x" (by rfl) (by rfl)

/-- C5: the structural parse strategies run in the fixed order direct parse,
fenced block, brace slice, each later one only when every earlier one
produced no JSON value; and the fenced example input yields the expected
record. -/
theorem C5_stage_order :
    (∀ (raw : String) (v : JsValue), jsonParse (preprocess raw) = some v →
      extractJsonFlexible raw = v) ∧
    (∀ (raw : String) (v : JsValue), jsonParse (preprocess raw) = none →
      fenceStage (preprocess raw) = some v → extractJsonFlexible raw = v) ∧
    (∀ (raw : String) (v : JsValue), jsonParse (preprocess raw) = none →
      fenceStage (preprocess raw) = none → sliceStage (preprocess raw) = some v →
      extractJsonFlexible raw = v) ∧
    mainExtract "```json\n\x7b\"title\":\"T\",\"draftBody\":\"B\",\"tags\":[]\x7d\n```" "" =
      { title := "T", draftBody := "B", tags := [] } := by
  refine ⟨?_, ?_, ?_, rfl⟩
  · intro raw v h
    unfold extractJsonFlexible
    rw [h]
  · intro raw v h1 h2
    unfold extractJsonFlexible
    rw [h1, h2]
  · intro raw v h1 h2 h3
    unfold extractJsonFlexible
    rw [h1, h2, h3]

/-- C5 witness: one concrete input per stage of the cascade. -/
theorem C5_witness :
    extractJsonFlexible "\x7b\"title\":\"A\",\"draftBody\":\"B\",\"tags\":[]\x7d" =
      JsValue.obj [("title", JsValue.str "A"), ("draftBody", JsValue.str "B"),
        ("tags", JsValue.arr [])] ∧
    extractJsonFlexible "```json\n\x7b\"a\":1\x7d\n```" =
      JsValue.obj [("a", JsValue.num "1")] ∧
    extractJsonFlexible "before \x7b\"a\":2\x7d after" =
      JsValue.obj [("a", JsValue.num "2")] :=
  ⟨C5_stage_order.1 _ _ (by rfl),
   C5_stage_order.2.1 _ _ (by rfl) (by rfl),
   C5_stage_order.2.2.1 _ _ (by rfl) (by rfl) (by rfl)⟩

/-- C6 counterexample: with no caller-supplied tags the merge step is skipped,
so extracted duplicate tags survive into the final record. -/
theorem C6_counterexample :
    (mainRecord "\x7b\"title\":\"T\",\"draftBody\":\"B\",\"tags\":[\"a\",\"a\"]\x7d" "" []).tags =
      ["a", "a"] ∧
    ¬ ((mainRecord "\x7b\"title\":\"T\",\"draftBody\":\"B\",\"tags\":[\"a\",\"a\"]\x7d" "" []).tags).Nodup := by
  exact ⟨rfl, by decide⟩

/-- C6 (amended): the final tag sequence is duplicate-free whenever the
caller supplies a non-empty input-tag list (the only case in which the
deduplicating merge runs); with no input tags the extracted tags pass
through unchanged and may contain duplicates. -/
theorem C6_nodup_when_merging (text resp : String) (input : List String)
    (h : input ≠ []) : ((mainRecord text resp input).tags).Nodup := by
  rw [mainRecord_tags_eq, mergeTags_of_ne _ _ h]
  exact dedupOrdered_nodup _

/-- C6 witness: instantiation of the amended claim. -/
theorem C6_witness : ((mainRecord "x" "y" ["t", "t"]).tags).Nodup :=
  C6_nodup_when_merging "x" "y" ["t", "t"] (by decide)

/-- C7: with a non-empty caller-supplied tag list the final tags are the
deduplicated union of the extracted tags and the input tags, and the
concrete merge of extracted `["x","y"]` with supplied `["y","z"]` is exactly
`["x","y","z"]`. -/
theorem C7_tag_merge (text resp : String) (input : List String) (h : input ≠ []) :
    ((mainRecord text resp input).tags).Nodup ∧
    (∀ x, x ∈ (mainRecord text resp input).tags ↔
      x ∈ (mainExtract text resp).tags ∨ x ∈ input) ∧
    mergeTags ["x", "y"] ["y", "z"] = ["x", "y", "z"] := by
  refine ⟨?_, ?_, by decide⟩
  · rw [mainRecord_tags_eq, mergeTags_of_ne _ _ h]
    exact dedupOrdered_nodup _
  · intro x
    rw [mainRecord_tags_eq, mergeTags_of_ne _ _ h, mem_dedupOrdered]
    simp [List.mem_append]

/-- C7 witness: instantiation at concrete inputs. -/
theorem C7_witness :
    ((mainRecord "x" "y" ["t"]).tags).Nodup ∧
    ("q" ∈ (mainRecord "x" "y" ["t"]).tags ↔
      "q" ∈ (mainExtract "x" "y").tags ∨ "q" ∈ ["t"]) ∧
    mergeTags ["x", "y"] ["y", "z"] = ["x", "y", "z"] := by
  obtain ⟨a, b2, c⟩ := C7_tag_merge "x" "y" ["t"] (by decide)
  exact ⟨a, b2 "q", c⟩

/-- C8: when the flexible extraction of the primary text fails and the repair
response yields no truthy JSON value, the result does not depend on the
repair response at all and equals the record derived from the original
primary generation text. -/
theorem C8_original_text (text resp resp2 : String)
    (he : jsTruthy (extractJsonFlexible text) = false)
    (h1 : jsTruthy (repairJson resp) = false)
    (h2 : jsTruthy (repairJson resp2) = false) :
    mainExtract text resp = mainExtract text resp2 ∧
    mainExtract text resp = derivedRecord text := by
  have a1 := mainExtract_of_no_parse text resp he h1
  have a2 := mainExtract_of_no_parse text resp2 he h2
  exact ⟨a1.trans a2.symm, a1⟩

/-- C8 witness: two different failing repair responses give the same record,
derived from the original text. -/
theorem C8_witness :
    mainExtract "plain prose" "r1" = mainExtract "plain prose" "r2" ∧
    mainExtract "plain prose" "r1" = derivedRecord "plain prose" :=
  C8_original_text "plain prose" "r1" "r2" (by rfl) (by rfl) (by rfl)

/-- C9 counterexample: the code trims before deleting zero-width spaces, so a
whitespace character (U+00A0, whitespace by the program's own trim class)
shielded behind a leading U+200B survives preprocessing and makes the direct
parse of an otherwise valid JSON object string fail. -/
theorem C9_counterexample :
    jsonParse "\x7b\"title\":\"T\",\"draftBody\":\"B\",\"tags\":[]\x7d" =
      some (JsValue.obj [("title", JsValue.str "T"), ("draftBody", JsValue.str "B"),
        ("tags", JsValue.arr [])]) ∧
    isJsWs (Char.ofNat 0xa0) = true ∧
    jsonParse (preprocess
      ("\u200B\u00A0" ++ "\x7b\"title\":\"T\",\"draftBody\":\"B\",\"tags\":[]\x7d")) = none := by
  exact ⟨rfl, rfl, rfl⟩

/-- C9 (amended): preprocessing trims first and then deletes every U+200B, so
no zero-width space ever reaches a parse attempt; and for an object string
surrounded only by whitespace that JSON.parse itself accepts, the direct
parse succeeds on the value of the string with its zero-width spaces
deleted. -/
theorem C9_preprocessing (a s b : String) (v : JsValue)
    (ha : ∀ c ∈ a.data, isJsonWs c = true)
    (hb : ∀ c ∈ b.data, isJsonWs c = true)
    (h1 : s.data.head? = some openBrace)
    (h2 : s.data.getLast? = some closeBrace)
    (hv : jsonParse (removeZwsp s) = some v) :
    extractJsonFlexible (a ++ s ++ b) = v ∧
    (∀ raw : String, zwsp ∉ (preprocess raw).data) := by
  constructor
  · have ht : jsTrim (a ++ s ++ b) = s :=
      jsTrim_sandwich a s b (fun c hc => isJsonWs_isJsWs c (ha c hc))
        (fun c hc => isJsonWs_isJsWs c (hb c hc)) h1 h2
    unfold extractJsonFlexible preprocess
    rw [ht, hv]
  · intro raw hmem
    have hmem2 : zwsp ∈ (jsTrim raw).data.filter (fun c => c != zwsp) := hmem
    rw [List.mem_filter] at hmem2
    simp at hmem2

/-- C9 witness: a JSON object with a zero-width space inside its title value,
surrounded by plain whitespace, parses directly and the zero-width space is
gone from the record value. -/
theorem C9_witness :
    extractJsonFlexible
        (" " ++ "\x7b\"title\":\"T\u200B\",\"draftBody\":\"B\",\"tags\":[]\x7d" ++ "\n") =
      JsValue.obj [("title", JsValue.str "T"), ("draftBody", JsValue.str "B"),
        ("tags", JsValue.arr [])] ∧
    zwsp ∉ (preprocess "q").data := by
  have h := C9_preprocessing " " "\x7b\"title\":\"T\u200B\",\"draftBody\":\"B\",\"tags\":[]\x7d"
    "\n" (JsValue.obj [("title", JsValue.str "T"), ("draftBody", JsValue.str "B"),
      ("tags", JsValue.arr [])]) (by decide) (by decide) (by rfl) (by rfl) (by rfl)
  exact ⟨h.1, h.2 "q"⟩

/-- C10: when a truthy JSON value was obtained but its tags field is not an
array, the extracted tags are empty and no error is raised. -/
theorem C10_nonarray_tags (text resp : String)
    (h1 : jsTruthy (effectiveParsed text resp) = true)
    (h2 : isArrOpt (getField (effectiveParsed text resp) "tags") = false) :
    (mainExtract text resp).tags = [] := by
  unfold mainExtract
  rw [if_pos h1]
  split
  · rw [derivedRecord_tags]
  · rw [mk_tags]
    exact extractedTags_nil _ h2

/-- C10 witness: a string-valued tags field yields empty extracted tags. -/
theorem C10_witness :
    (mainExtract "\x7b\"title\":\"T\",\"draftBody\":\"B\",\"tags\":\"oops\"\x7d" "").tags = [] :=
  C10_nonarray_tags "\x7b\"title\":\"T\",\"draftBody\":\"B\",\"tags\":\"oops\"\x7d" ""
    (by rfl) (by rfl)

end NoteDraft
